import Mathlib

/-!
Shallow embedding of the spherical FPN repository (`uscnn/layers/layers.py`,
`uscnn/models/fpn.py`).

Feature tensors of shape (batch, channels, nv) are embedded as functions
`Fin b → Fin c → Fin n → ℚ`; the sparse operator matrices of a mesh bundle are
embedded as dense matrices `Fin m → Fin n → ℚ` (the repository's
`sparse2tensor` densifies them before use).  Machine floats are modelled by
exact rationals.
-/

set_option autoImplicit false

/-- Feature tensor of shape (batch, channels, n): `input`, layer outputs. -/
abbrev T3 (b c n : ℕ) : Type := Fin b → Fin c → Fin n → ℚ

/-- A dense matrix of shape (m, n), standing for a (densified) sparse operator. -/
abbrev Mat (m n : ℕ) : Type := Fin m → Fin n → ℚ

/-- Modelled from the spec: `spmatmul` is imported from the repository's
`utils` module, which is not under `src/`.  Per the spec (§4.2 step 1 and §6)
it multiplies a feature tensor (batch, channels, n) by an operator matrix
(m, n) along the last axis, producing (batch, channels, m). -/
def spmatmul {b c n m : ℕ} (x : T3 b c n) (A : Mat m n) : T3 b c m :=
  fun i j r => ∑ v, A r v * x i j v

/-- The operator bundle unpickled from a mesh file (`_MeshConv.__init__`,
layers.py:35-47): gradient matrix `G` (3·nf × nv), direction fields `NS`, `EW`
(nf × 3), full Laplacian `L` (nv × nv), face-to-vertex matrix `F2V` (nv × nf),
and the coarser level's vertex count `nv_prev` (layers.py:67,118) with the
hierarchy invariant that the coarser vertices are a prefix of the finer ones. -/
structure MeshBundle (nv nf : ℕ) where
  G : Mat (3 * nf) nv
  NS : Fin nf → Fin 3 → ℚ
  EW : Fin nf → Fin 3 → ℚ
  L : Mat nv nv
  F2V : Mat nv nf
  nvPrev : ℕ
  hPrev : nvPrev ≤ nv

/-- Index into a flat 3·nf axis viewed as (3, nf): component `k` of face `f`
sits at position `k * nf + f` (layers.py:81 `.view(..., 3, -1)`). -/
def finViewIdx {nf : ℕ} (k : Fin 3) (f : Fin nf) : Fin (3 * nf) :=
  ⟨k.val * nf + f.val, by
    have hf := f.isLt
    have hk := k.isLt
    calc k.val * nf + f.val < k.val * nf + nf := by omega
    _ = (k.val + 1) * nf := by ring
    _ ≤ 3 * nf := Nat.mul_le_mul_right nf (by omega)⟩

/-- Row truncation `A.tocsr()[:p]` of an operator matrix to its first `p`
rows (layers.py:68-69). -/
def truncRows {m n : ℕ} (A : Mat m n) {p : ℕ} (hp : p ≤ m) : Mat p n :=
  fun r c => A (Fin.castLE hp r) c

/-- Per-face 3-component gradient (layers.py:80-81):
`spmatmul(input, G)` followed by `.view(b, c, 3, nf).permute(0, 1, 3, 2)`. -/
def gradFace {b c nv nf : ℕ} (G : Mat (3 * nf) nv) (input : T3 b c nv) :
    Fin b → Fin c → Fin nf → Fin 3 → ℚ :=
  fun i j f k => spmatmul input G i j (finViewIdx k f)

/-- Face gradients projected onto the east-west direction field
(layers.py:90): elementwise multiply by `EW` and sum over the 3-axis. -/
def gradFaceEW {b c nv nf : ℕ} (B : MeshBundle nv nf) (input : T3 b c nv) :
    T3 b c nf :=
  fun i j f => ∑ k, gradFace B.G input i j f k * B.EW f k

/-- Face gradients projected onto the north-south direction field
(layers.py:91). -/
def gradFaceNS {b c nv nf : ℕ} (B : MeshBundle nv nf) (input : T3 b c nv) :
    T3 b c nf :=
  fun i j f => ∑ k, gradFace B.G input i j f k * B.NS f k

/-- The identity basis term (layers.py:87): `input[..., :nv_prev]`. -/
def meshConvIdentity {b c nv : ℕ} {p : ℕ} (hp : p ≤ nv) (input : T3 b c nv) :
    T3 b c p :=
  fun i j v => input i j (Fin.castLE hp v)

/-- The four stacked basis terms of `MeshConv.forward` (layers.py:98-101), in
source order: identity, Laplacian, EW vertex gradient, NS vertex gradient.
The row truncation of `L` and `F2V` to the first `p` rows is done in
`MeshConv.__init__` (layers.py:66-73); `p` is the constructor's `nv_prev`. -/
def meshConvFeat {b c nv nf : ℕ} (B : MeshBundle nv nf) {p : ℕ} (hp : p ≤ nv)
    (input : T3 b c nv) : Fin b → Fin c → Fin p → Fin 4 → ℚ :=
  fun i j v =>
    ![meshConvIdentity hp input i j v,
      spmatmul input (truncRows B.L hp) i j v,
      spmatmul (gradFaceEW B input) (truncRows B.F2V hp) i j v,
      spmatmul (gradFaceNS B input) (truncRows B.F2V hp) i j v]

/-- `MeshConv.forward` (layers.py:78-106) at an explicit output vertex count
`p` (= the constructor's `nv_prev`), with the bias present: stack the four
basis terms, contract with `coeffs` over input channels and basis index
(layers.py:101-102), and add the bias (layers.py:103). -/
def MeshConv.forwardAt {b ci co nv nf : ℕ} (B : MeshBundle nv nf) {p : ℕ}
    (hp : p ≤ nv) (coeffs : Fin co → Fin ci → Fin 4 → ℚ)
    (bias : Fin co → ℚ) (input : T3 b ci nv) : T3 b co p :=
  fun i o v =>
    (∑ j, ∑ k, meshConvFeat B hp input i j v k * coeffs o j k) + bias o

/-- The output vertex count chosen by `MeshConv.__init__` (layers.py:66-73):
the bundle's `nv_prev` when `stride == 2`, else the bundle's own `nv`. -/
def MeshConv.nvOut {nv nf : ℕ} (stride : ℕ) (B : MeshBundle nv nf) : ℕ :=
  if stride = 2 then B.nvPrev else nv

/-- The constructor's `nv_prev` never exceeds the bundle's `nv` (vertex
prefix invariant), so the truncations in `MeshConv.__init__` are in range. -/
def MeshConv.nvOut_le {nv nf : ℕ} (stride : ℕ) (B : MeshBundle nv nf) :
    MeshConv.nvOut stride B ≤ nv := by
  unfold MeshConv.nvOut
  split
  · exact B.hPrev
  · exact Nat.le_refl nv

/-- `MeshConv.forward` with the stride-dependent truncation of the
constructor. -/
def MeshConv.forward {b ci co nv nf : ℕ} (stride : ℕ) (B : MeshBundle nv nf)
    (coeffs : Fin co → Fin ci → Fin 4 → ℚ) (bias : Fin co → ℚ)
    (input : T3 b ci nv) : T3 b co (MeshConv.nvOut stride B) :=
  MeshConv.forwardAt B (MeshConv.nvOut_le stride B) coeffs bias input

/-- `MeshConv.forward` as written in the source, with the optional bias: line
103 `out += self.bias.unsqueeze(-1)` is executed unconditionally, so a `None`
bias (constructed with `bias=False`, layers.py:28) raises an
`AttributeError`; a present bias is added per output channel. -/
def MeshConv.forwardOpt {b ci co nv nf : ℕ} (stride : ℕ) (B : MeshBundle nv nf)
    (coeffs : Fin co → Fin ci → Fin 4 → ℚ) (bias : Option (Fin co → ℚ))
    (input : T3 b ci nv) : Except String (T3 b co (MeshConv.nvOut stride B)) :=
  match bias with
  | none => Except.error "AttributeError: NoneType object has no attribute unsqueeze"
  | some bv => Except.ok (MeshConv.forward stride B coeffs bv input)

/-- `torch.cat((input, torch.ones(b, c, nv_pad)), dim=-1)`
(layers.py:129-130), viewed directly at the target width `nv`: the first
`p` columns are the input, the remaining columns are ones. -/
def padOnesTo {b c p : ℕ} (x : T3 b c p) (nv : ℕ) : T3 b c nv :=
  fun i j v => if hv : v.val < p then x i j ⟨v.val, hv⟩ else 1

/-- `MeshConvTranspose.forward` (layers.py:127-159): pad the coarse input
with ones up to the finer level's `nv`, then the same PDO algebra with the
full (untruncated) `L` and `F2V` (layers.py:121-122) and the identity term
taken as the whole padded tensor (layers.py:140). -/
def MeshConvTranspose.forward {b ci co nv nf : ℕ} (B : MeshBundle nv nf)
    (coeffs : Fin co → Fin ci → Fin 4 → ℚ) (bias : Fin co → ℚ)
    (input : T3 b ci B.nvPrev) : T3 b co nv :=
  fun i o v =>
    (∑ j, ∑ k,
      ![padOnesTo input nv i j v,
        spmatmul (padOnesTo input nv) B.L i j v,
        spmatmul (gradFaceEW B (padOnesTo input nv)) B.F2V i j v,
        spmatmul (gradFaceNS B (padOnesTo input nv)) B.F2V i j v] k * coeffs o j k)
    + bias o

/-- `DownSamp.forward` (layers.py:170-172): truncation `x[..., :nv_prev]` to
the first `nv_prev` vertex columns. -/
def DownSamp.forward {b c nv : ℕ} (nvPrev : ℕ) (h : nvPrev ≤ nv)
    (x : T3 b c nv) : T3 b c nvPrev :=
  fun i j v => x i j (Fin.castLE h v)

/-!
Shape-level semantics.  The pyramid-network claims are about tensor shapes
(which forward passes raise, and the channel / vertex counts they produce),
so the layers are also embedded at the level of shapes `(channels, nv)` with
`Except` modelling a raised shape error.  The batch dimension is common to
every tensor and plays no role in any shape check, so it is omitted.
-/

/-- The shape (channels, vertex count) of one feature tensor. -/
structure Shape where
  ch : ℕ
  nv : ℕ
  deriving DecidableEq

/-- Modelled from the spec: the per-level mesh files `icosphere_i.pkl` are
not under `src/`.  Per the spec the levels are an icosahedral subdivision
hierarchy (level 0 is the icosahedron with `nv = 12`, §8) in which each
refinement quadruples the faces, giving `nv = 10·4^l + 2`; the commented
driver in `fpn.py` confirms `nv = 10242` at level 5. -/
def icoNv (l : ℕ) : ℕ := 10 * 4 ^ l + 2

/-- Broadcast compatibility of one dimension pair (torch semantics): equal,
or one of them is 1, in which case the larger survives. -/
def broadcastDim (m n : ℕ) : Option ℕ :=
  if m = n then some m
  else if m = 1 then some n
  else if n = 1 then some m
  else none

/-- Shape of an elementwise tensor addition (`x1 + x2`), broadcasting each
dimension; incompatible dimensions raise. -/
def addShape (s t : Shape) : Except String Shape :=
  match broadcastDim s.ch t.ch, broadcastDim s.nv t.nv with
  | some c, some n => Except.ok ⟨c, n⟩
  | _, _ => Except.error "RuntimeError: tensor sizes do not match"

/-- Shape of `nn.Conv1d(inCh, outCh, kernel_size=1, stride=1)`: requires the
input channel count to be exactly `inCh`. -/
def conv1dShape (inCh outCh : ℕ) (s : Shape) : Except String Shape :=
  if s.ch = inCh then Except.ok ⟨outCh, s.nv⟩
  else Except.error "RuntimeError: Conv1d channel mismatch"

/-- Shape of `nn.BatchNorm1d(c)`: requires the channel count to be `c`. -/
def batchNorm1dShape (c : ℕ) (s : Shape) : Except String Shape :=
  if s.ch = c then Except.ok s
  else Except.error "RuntimeError: BatchNorm1d channel mismatch"

/-- `nn.ReLU` preserves the shape. -/
def reluShape (s : Shape) : Except String Shape := Except.ok s

/-- Output vertex count of a `MeshConv` built on the level-`lvl` bundle
(layers.py:66-73): the coarser level's count when `stride == 2`, else the
level's own count. -/
def meshConvNvPrev (lvl stride : ℕ) : ℕ :=
  if stride = 2 then icoNv (lvl - 1) else icoNv lvl

/-- Shape of `MeshConv(inCh, outCh, icosphere_lvl, stride).forward`: the
sparse multiply against `G` (layers.py:80) requires the input vertex count to
equal the bundle's `nv`; the contraction against `coeffs` (layers.py:102)
broadcasts the input channel axis against `inCh`; the output is
(`outCh`, constructor `nv_prev`). -/
def meshConvShape (inCh outCh lvl stride : ℕ) (s : Shape) : Except String Shape :=
  if s.nv = icoNv lvl then
    match broadcastDim s.ch inCh with
    | some _ => Except.ok ⟨outCh, meshConvNvPrev lvl stride⟩
    | none => Except.error "RuntimeError: MeshConv channel mismatch"
  else Except.error "RuntimeError: MeshConv vertex count mismatch"

/-- Shape of `MeshConvTranspose(inCh, outCh, icosphere_lvl, stride=2).forward`:
the input is padded with `nv_pad = nv - nv_prev` ones (layers.py:129-130), and
the padded tensor must have the bundle's `nv` columns for the sparse multiply
against `G`; the output is (`outCh`, `nv`). -/
def meshConvTransposeShape (inCh outCh lvl : ℕ) (s : Shape) : Except String Shape :=
  if s.nv + (icoNv lvl - icoNv (lvl - 1)) = icoNv lvl then
    match broadcastDim s.ch inCh with
    | some _ => Except.ok ⟨outCh, icoNv lvl⟩
    | none => Except.error "RuntimeError: MeshConvTranspose channel mismatch"
  else Except.error "RuntimeError: MeshConvTranspose vertex count mismatch"

/-- Shape of `DownSamp(nvPrev).forward`: the Python slice `x[..., :nvPrev]`
clamps, leaving `min nvPrev nv` columns. -/
def downSampShape (nvPrev : ℕ) (s : Shape) : Shape :=
  ⟨s.ch, min nvPrev s.nv⟩

/-- The source's skip-branch condition `self.diff_chan or self.coarsen`
(layers.py:186,218,229), where `diff_chan = (in_chan != out_chan)`: when it
is false the skip path of `ResBlock.forward` is `x2 = x`, the identity. -/
def resBlockUsesConvSkip (inChan outChan : ℕ) (coarsen : Bool) : Bool :=
  (inChan ≠ outChan : Bool) || coarsen

/-- Shape of the main branch `seq_a` of `ResBlock` (layers.py:207-215). -/
def resBlockMainShape (inChan neckChan outChan lvl : ℕ) (coarsen : Bool)
    (s : Shape) : Except String Shape := do
  let a ← conv1dShape inChan neckChan s
  let a := if coarsen then downSampShape (icoNv lvl) a else a
  let a ← batchNorm1dShape neckChan a
  let a ← reluShape a
  let a ← meshConvShape neckChan neckChan lvl 1 a
  let a ← batchNorm1dShape neckChan a
  let a ← reluShape a
  let a ← conv1dShape neckChan outChan a
  batchNorm1dShape outChan a

/-- Shape of the skip branch `seq_b` of `ResBlock` (layers.py:217-225). -/
def resBlockSkipShape (inChan outChan lvl : ℕ) (coarsen : Bool)
    (s : Shape) : Except String Shape := do
  let a ← conv1dShape inChan outChan s
  let a := if coarsen then downSampShape (icoNv lvl) a else a
  batchNorm1dShape outChan a

/-- The mesh level of the `MeshConv` embedded in a `ResBlock`
(layers.py:181): `level - 1` when coarsening, else `level`. -/
def resBlockLvl (level : ℕ) (coarsen : Bool) : ℕ :=
  if coarsen then level - 1 else level

/-- The skip value `x2` of `ResBlock.forward` (layers.py:229-232): the skip
branch when `diff_chan or coarsen`, else the input unchanged. -/
def resBlockX2 (inChan outChan lvl : ℕ) (coarsen : Bool) (s : Shape) :
    Except String Shape :=
  if resBlockUsesConvSkip inChan outChan coarsen
  then resBlockSkipShape inChan outChan lvl coarsen s
  else Except.ok s

/-- Shape of `ResBlock(in_chan, neck_chan, out_chan, level, coarsen).forward`
(layers.py:176-244): skip branch, main branch, add, final ReLU. -/
def resBlockShape (inChan neckChan outChan level : ℕ) (coarsen : Bool)
    (s : Shape) : Except String Shape := do
  let x2 ← resBlockX2 inChan outChan (resBlockLvl level coarsen) coarsen s
  let x1 ← resBlockMainShape inChan neckChan outChan (resBlockLvl level coarsen) coarsen s
  let out ← addShape x1 x2
  reluShape out

/-- Shape of `Down(in_ch, out_ch, level).forward` (fpn.py:39-53): a residual
block at `level + 1` with `coarsen=True` and neck width `in_ch`. -/
def Down.forwardShape (inCh outCh level : ℕ) (s : Shape) : Except String Shape :=
  resBlockShape inCh inCh outCh (level + 1) true s

/-- Shape of `Up(in_ch, out_ch, level).forward` (fpn.py:7-36): a transposed
PDO convolution `MeshConvTranspose(out_ch, out_ch, icosphere_level)` on the
previous pyramid tensor, a 1x1 convolution `Conv1d(in_ch, out_ch)` on the
encoder skip tensor, and their sum. -/
def Up.forwardShape (inCh outCh level : ℕ) (x1 x2 : Shape) : Except String Shape := do
  let a ← meshConvTransposeShape outCh outCh level x1
  let b ← conv1dShape inCh outCh x2
  addShape a b

/-- Python list indexing `l[i]`, including negative indices counted from the
end; out of range raises `IndexError`. -/
def pyGet (l : List Shape) (i : ℤ) : Except String Shape :=
  let j : ℤ := if i < 0 then i + l.length else i
  if 0 ≤ j then
    match l.get? j.toNat with
    | some s => Except.ok s
    | none => Except.error "IndexError: list index out of range"
  else Except.error "IndexError: list index out of range"

/-- Python's `int(fdim * 2 ** e)` for a possibly negative exponent `e`
(fpn.py:92): a float multiply truncated back to an integer. -/
def pyCh (fdim : ℕ) (e : ℤ) : ℕ :=
  if 0 ≤ e then fdim * 2 ^ e.toNat else fdim / 2 ^ (-e).toNat

/-- The encoder loop of `SphericalFPNet.forward` (fpn.py:117-121): starting
from the initial convolution's output, apply `Down` blocks
`Down(fdim·2^i, fdim·2^(i+1), max_level - i - 1)` for `i = 0, …, levels-1`,
collecting every intermediate tensor shape in order. -/
def fpnEncoder (fdim maxLevel : ℕ) : ℕ → ℕ → Shape → Except String (List Shape)
  | _, 0, last => Except.ok [last]
  | i, n + 1, last => do
    let nxt ← Down.forwardShape (fdim * 2 ^ i) (fdim * 2 ^ (i + 1))
      (maxLevel - i - 1) last
    let rest ← fpnEncoder fdim maxLevel (i + 1) n nxt
    Except.ok (last :: rest)

/-- Shape of `SphericalFPNet(mesh_folder, in_ch, out_ch, max_level,
min_level, fdim, fpn_dim).forward` (fpn.py:56-144): initial stride-1
`MeshConv`, the encoder of `levels = max_level - min_level` `Down` blocks,
the 1x1 cross connection, the three hard-coded `Up` stages (whose encoder
operands are the Python indices `x_d[levels-1]`, `x_d[levels-2]`,
`x_d[levels-3]`), the detection stage, the four-way sum, and the final two
transposed convolutions. -/
def SphericalFPNet.forwardShape (inCh outCh maxLevel minLevel fdim fpnDim : ℕ)
    (s : Shape) : Except String Shape := do
  let levels := maxLevel - minLevel
  let x0 ← meshConvShape inCh fdim maxLevel 1 s
  let xd ← fpnEncoder fdim maxLevel 0 levels x0
  let xdLast ← pyGet xd (-1)
  let xu0 ← conv1dShape (fdim * 2 ^ levels) fpnDim xdLast
  let e0 ← pyGet xd ((levels : ℤ) - 1)
  let xu1 ← Up.forwardShape (pyCh fdim ((levels : ℤ) - 1)) fpnDim (minLevel + 1) xu0 e0
  let e1 ← pyGet xd ((levels : ℤ) - 2)
  let xu2 ← Up.forwardShape (pyCh fdim ((levels : ℤ) - 2)) fpnDim (minLevel + 2) xu1 e1
  let e2 ← pyGet xd ((levels : ℤ) - 3)
  let xu3 ← Up.forwardShape (pyCh fdim ((levels : ℤ) - 3)) fpnDim (minLevel + 3) xu2 e2
  let y1 ← meshConvTransposeShape fpnDim 128 1 xu0
  let y1 ← meshConvTransposeShape 128 128 2 y1
  let y1 ← meshConvTransposeShape 128 128 3 y1
  let y2 ← meshConvTransposeShape fpnDim 128 2 xu1
  let y2 ← meshConvTransposeShape 128 128 3 y2
  let y3 ← meshConvTransposeShape fpnDim 128 3 xu2
  let y4 ← conv1dShape fpnDim 128 xu3
  let z1 ← addShape y1 y2
  let z2 ← addShape z1 y3
  let z3 ← addShape z2 y4
  let w ← meshConvTransposeShape 128 128 (maxLevel - 1) z3
  meshConvTransposeShape 128 outCh maxLevel w

/-!
Concrete instances used by witnesses and counterexamples.
-/

/-- A small concrete bundle: `nv = 2`, `nf = 1`, `nv_prev = 1`, all operator
matrices zero. -/
def B21 : MeshBundle 2 1 :=
  ⟨fun _ _ => 0, fun _ _ => 0, fun _ _ => 0, fun _ _ => 0, fun _ _ => 0, 1, by omega⟩

/-- A 1×1×4 coefficient tensor putting weight 1 on the identity basis term
and 0 on the others. -/
def coeffsId : Fin 1 → Fin 1 → Fin 4 → ℚ := fun _ _ k => if k = 0 then 1 else 0

/-- The all-zero feature tensor of shape (1, 1, 1). -/
def zeroIn11 : T3 1 1 1 := fun _ _ _ => 0

/-- A concrete feature tensor of shape (1, 1, 1). -/
def sampleIn : T3 1 1 1 := fun _ _ _ => 5

/-- A concrete feature tensor of shape (1, 1, 2) with distinct columns. -/
def sampleT3 : T3 1 1 2 := fun _ _ v => (v.val : ℚ)

/-!
Helper lemmas.
-/

theorem truncRows_id {m n : ℕ} (A : Mat m n) (hp : m ≤ m) : truncRows A hp = A := by
  funext r c
  simp [truncRows, Fin.castLE]

theorem meshConvIdentity_id {b c nv : ℕ} (hp : nv ≤ nv) (input : T3 b c nv) :
    meshConvIdentity hp input = input := by
  funext i j v
  simp [meshConvIdentity, Fin.castLE]

theorem icoNv_pred_le (l : ℕ) : icoNv (l - 1) ≤ icoNv l := by
  unfold icoNv
  have h : 4 ^ (l - 1) ≤ 4 ^ l := Nat.pow_le_pow_right (by omega) (by omega)
  omega

theorem icoNv_pred_lt (l : ℕ) (h : 1 ≤ l) : icoNv (l - 1) < icoNv l := by
  unfold icoNv
  have h2 : 4 ^ (l - 1) < 4 ^ l := Nat.pow_lt_pow_right (by omega) (by omega)
  omega

theorem exceptBind_ok {α β : Type} {x : Except String α} {f : α → Except String β} {r : β}
    (h : Bind.bind x f = Except.ok r) : ∃ a, x = Except.ok a ∧ f a = Except.ok r := by
  cases x with
  | error e => exact absurd h (by simp [Bind.bind, Except.bind])
  | ok a => exact ⟨a, rfl, by simpa [Bind.bind, Except.bind] using h⟩

theorem conv1dShape_ok {i o : ℕ} {s r : Shape} (h : conv1dShape i o s = Except.ok r) :
    s.ch = i ∧ r = ⟨o, s.nv⟩ := by
  unfold conv1dShape at h
  split at h
  · exact ⟨by assumption, by injection h with h2; exact h2.symm⟩
  · exact absurd h (by simp)

theorem batchNorm1dShape_ok {c : ℕ} {s r : Shape} (h : batchNorm1dShape c s = Except.ok r) :
    s.ch = c ∧ r = s := by
  unfold batchNorm1dShape at h
  split at h
  · exact ⟨by assumption, by injection h with h2; exact h2.symm⟩
  · exact absurd h (by simp)

theorem reluShape_ok {s r : Shape} (h : reluShape s = Except.ok r) : r = s := by
  unfold reluShape at h
  injection h with h2
  exact h2.symm

theorem addShape_ok_ch {s t r : Shape} {c : ℕ} (h1 : s.ch = c) (h2 : t.ch = c)
    (h : addShape s t = Except.ok r) : r.ch = c := by
  unfold addShape at h
  rw [h1, h2] at h
  have hcc : broadcastDim c c = some c := by simp [broadcastDim]
  rw [hcc] at h
  rcases h3 : broadcastDim s.nv t.nv with _ | n <;> rw [h3] at h
  · exact Except.noConfusion h
  · injection h with h4
    rw [← h4]

theorem resBlockMainShape_ok_ch {inChan neckChan outChan lvl : ℕ} {coarsen : Bool}
    {s r : Shape} (h : resBlockMainShape inChan neckChan outChan lvl coarsen s = Except.ok r) :
    s.ch = inChan ∧ r.ch = outChan := by
  unfold resBlockMainShape at h
  obtain ⟨a1, h1, h⟩ := exceptBind_ok h
  obtain ⟨a2, h2, h⟩ := exceptBind_ok h
  obtain ⟨a3, h3, h⟩ := exceptBind_ok h
  obtain ⟨a4, h4, h⟩ := exceptBind_ok h
  obtain ⟨a5, h5, h⟩ := exceptBind_ok h
  obtain ⟨a6, h6, h⟩ := exceptBind_ok h
  obtain ⟨a7, h7, h⟩ := exceptBind_ok h
  refine ⟨(conv1dShape_ok h1).1, ?_⟩
  rw [(batchNorm1dShape_ok h).2, (conv1dShape_ok h7).2]

theorem resBlockSkipShape_ok_ch {inChan outChan lvl : ℕ} {coarsen : Bool}
    {s r : Shape} (h : resBlockSkipShape inChan outChan lvl coarsen s = Except.ok r) :
    r.ch = outChan := by
  unfold resBlockSkipShape at h
  obtain ⟨a1, h1, h⟩ := exceptBind_ok h
  rw [(batchNorm1dShape_ok h).2]
  rcases conv1dShape_ok h1 with ⟨-, h1b⟩
  subst h1b
  cases coarsen <;> simp [downSampShape]

/-!
Claim theorems.
-/

/-- Claim C1: for every input tensor of shape (batch, in_channels, nv)
matching the loaded bundle, `MeshConv.forward` returns the bilinear
contraction `out[b, o, v] = ∑ i ∑ k coeffs[o, i, k] * feat_k[b, i, v]` plus
`bias[o]`, where the four basis terms are, in order: the identity (input
truncated to the first `nv_prev` columns), the Laplacian applied to the
input, the EW vertex gradient (face gradients from `G` projected onto `EW`
then averaged by `F2V`), and the NS vertex gradient. -/
theorem meshConv_forward_bilinear_contraction :
    ∀ (b ci co nv nf : ℕ) (stride : ℕ) (B : MeshBundle nv nf)
      (coeffs : Fin co → Fin ci → Fin 4 → ℚ) (bias : Fin co → ℚ)
      (input : T3 b ci nv) (i : Fin b) (o : Fin co)
      (v : Fin (MeshConv.nvOut stride B)),
      MeshConv.forward stride B coeffs bias input i o v =
        (∑ j : Fin ci,
          (coeffs o j 0 * input i j (Fin.castLE (MeshConv.nvOut_le stride B) v)
          + coeffs o j 1 *
            (∑ w, B.L (Fin.castLE (MeshConv.nvOut_le stride B) v) w * input i j w)
          + coeffs o j 2 *
            (∑ f, B.F2V (Fin.castLE (MeshConv.nvOut_le stride B) v) f *
              (∑ d, (∑ w, B.G (finViewIdx d f) w * input i j w) * B.EW f d))
          + coeffs o j 3 *
            (∑ f, B.F2V (Fin.castLE (MeshConv.nvOut_le stride B) v) f *
              (∑ d, (∑ w, B.G (finViewIdx d f) w * input i j w) * B.NS f d))))
        + bias o := by
  intro b ci co nv nf stride B coeffs bias input i o v
  simp only [MeshConv.forward, MeshConv.forwardAt, meshConvFeat, meshConvIdentity,
    spmatmul, gradFaceEW, gradFaceNS, gradFace, truncRows, Fin.sum_univ_four,
    Matrix.cons_val_zero, Matrix.cons_val_one, Matrix.head_cons,
    Matrix.cons_val_two, Matrix.tail_cons, Matrix.cons_val_three]
  congr 1
  apply Finset.sum_congr rfl
  intro j _
  ring

/-- Claim C2: `MeshConvTranspose.forward` first appends columns of ones (not
zeros) to the input along the vertex axis up to the finer level's `nv`, then
runs the same PDO algebra as the forward operator on the finer level's
bundle, with the identity term the full padded tensor and no truncation
(`MeshConv.forwardAt` at `p = nv`). -/
theorem meshConvTranspose_pads_ones_same_algebra :
    ∀ (b ci co nv nf : ℕ) (B : MeshBundle nv nf)
      (coeffs : Fin co → Fin ci → Fin 4 → ℚ) (bias : Fin co → ℚ)
      (input : T3 b ci B.nvPrev),
      (∀ (i : Fin b) (j : Fin ci) (v : Fin nv), B.nvPrev ≤ v.val →
        padOnesTo input nv i j v = 1)
      ∧ (∀ (i : Fin b) (j : Fin ci) (v : Fin nv) (hv : v.val < B.nvPrev),
        padOnesTo input nv i j v = input i j ⟨v.val, hv⟩)
      ∧ MeshConvTranspose.forward B coeffs bias input
          = MeshConv.forwardAt B (le_refl nv) coeffs bias (padOnesTo input nv) := by
  intro b ci co nv nf B coeffs bias input
  refine ⟨?_, ?_, ?_⟩
  · intro i j v hv
    unfold padOnesTo
    rw [dif_neg (by omega)]
  · intro i j v hv
    unfold padOnesTo
    rw [dif_pos hv]
  · funext i o v
    simp only [MeshConvTranspose.forward, MeshConv.forwardAt, meshConvFeat,
      truncRows_id, meshConvIdentity_id]

/-- Claim C2 witness: at the concrete bundle `B21` with a concrete input, the
padded column beyond `nv_prev` is one and the columns below are the input. -/
theorem meshConvTranspose_pads_ones_witness :
    padOnesTo sampleIn 2 (0 : Fin 1) (0 : Fin 1) (1 : Fin 2) = 1
    ∧ padOnesTo sampleIn 2 (0 : Fin 1) (0 : Fin 1) (0 : Fin 2)
      = sampleIn 0 0 ⟨0, by omega⟩ := by
  have h := meshConvTranspose_pads_ones_same_algebra 1 1 1 2 1 B21 coeffsId
    (fun _ => 0) sampleIn
  exact ⟨h.1 0 0 1 (by decide), h.2.1 0 0 0 (by decide)⟩

/-- Claim C3 (code bug): `MeshConv.forward` adds the bias unconditionally
(layers.py:103), so on an operator constructed with `bias=False` (bias
`None`) the forward pass raises instead of returning the weighted
combination: evaluated at a concrete bias-disabled operator and valid
input. -/
theorem meshConv_bias_none_raises :
    MeshConv.forwardOpt 1 B21 ((fun _ _ _ => 1) : Fin 1 → Fin 1 → Fin 4 → ℚ)
      none (fun _ _ _ => 0 : T3 1 1 2)
      = Except.error "AttributeError: NoneType object has no attribute unsqueeze" := rfl

/-- Claim C4: a stride-1 `MeshConv` on the level-`lvl` bundle maps an input
of matching shape to the same vertex count; a stride-2 `MeshConv` maps it to
the bundle's `nv_prev = icoNv (lvl - 1)`, strictly less than the input
vertex count (the bundle has a coarser level, `1 ≤ lvl`); the channel count
is the configured `outC` in both cases. -/
theorem meshConv_stride_output_shape (inC outC lvl : ℕ) (hl : 1 ≤ lvl)
    (s : Shape) (hch : s.ch = inC) (hnv : s.nv = icoNv lvl) :
    meshConvShape inC outC lvl 1 s = Except.ok ⟨outC, s.nv⟩
    ∧ meshConvShape inC outC lvl 2 s = Except.ok ⟨outC, icoNv (lvl - 1)⟩
    ∧ icoNv (lvl - 1) < s.nv := by
  refine ⟨?_, ?_, ?_⟩
  · simp [meshConvShape, meshConvNvPrev, broadcastDim, hch, hnv]
  · simp [meshConvShape, meshConvNvPrev, broadcastDim, hch, hnv]
  · rw [hnv]
    exact icoNv_pred_lt lvl hl

/-- Claim C4 witness: at level 1 with 3 input and 5 output channels. -/
theorem meshConv_stride_output_shape_witness :
    meshConvShape 3 5 1 1 ⟨3, 42⟩ = Except.ok ⟨5, 42⟩
    ∧ meshConvShape 3 5 1 2 ⟨3, 42⟩ = Except.ok ⟨5, icoNv 0⟩
    ∧ icoNv 0 < 42 :=
  meshConv_stride_output_shape 3 5 1 (by omega) ⟨3, 42⟩ rfl (by decide)

/-- Claim C5 counterexample: constructing `SphericalFPNet` with
`max_level=1`, `min_level=0` (defaults `fdim=16`, `fpn_dim=256`) and running
the forward pass on an input of the correct shape (4 channels, `nv` at level
1) does not produce the claimed output shape: the pass raises. -/
theorem sphericalFPNet_two_level_not_ok :
    SphericalFPNet.forwardShape 4 15 1 0 16 256 ⟨4, icoNv 1⟩
      ≠ Except.ok ⟨15, icoNv 1⟩ := by
  intro h
  rw [show SphericalFPNet.forwardShape 4 15 1 0 16 256 ⟨4, icoNv 1⟩ =
    Except.error "RuntimeError: Conv1d channel mismatch" from rfl] at h
  exact Except.noConfusion h

/-- Claim C5 amended: with `max_level=1`, `min_level=0` the forward pass of
`SphericalFPNet` raises a channel mismatch in the second `Up` stage: the
encoder index `levels - 2 = -1` wraps to the coarsest tensor (32 channels)
while that stage's 1x1 cross-connection expects `int(16 * 2^-1) = 8`
channels. -/
theorem sphericalFPNet_two_level_raises :
    SphericalFPNet.forwardShape 4 15 1 0 16 256 ⟨4, icoNv 1⟩
      = Except.error "RuntimeError: Conv1d channel mismatch" := rfl

/-- Claim C6: a `MeshConv` with zero bias and any nonzero coefficient tensor
maps the all-zero input tensor to the all-zero output tensor. -/
theorem meshConv_zero_input_zero_output :
    ∀ (b ci co nv nf : ℕ) (stride : ℕ) (B : MeshBundle nv nf)
      (coeffs : Fin co → Fin ci → Fin 4 → ℚ),
      coeffs ≠ (fun _ _ _ => 0) →
      MeshConv.forward stride B coeffs (fun _ => 0) (fun _ _ _ => 0 : T3 b ci nv)
        = fun _ _ _ => 0 := by
  intro b ci co nv nf stride B coeffs _
  funext i o v
  simp [MeshConv.forward, MeshConv.forwardAt, meshConvFeat, meshConvIdentity,
    spmatmul, gradFaceEW, gradFaceNS, gradFace, truncRows, Fin.sum_univ_four,
    Matrix.cons_val_zero, Matrix.cons_val_one, Matrix.head_cons,
    Matrix.cons_val_two, Matrix.tail_cons, Matrix.cons_val_three]

/-- Claim C6 witness: the all-ones coefficient tensor is nonzero and the
zero input still maps to zero on the concrete bundle `B21`. -/
theorem meshConv_zero_input_zero_output_witness :
    ((fun _ _ _ => (1 : ℚ)) : Fin 1 → Fin 1 → Fin 4 → ℚ) ≠ (fun _ _ _ => 0)
    ∧ MeshConv.forward 1 B21 ((fun _ _ _ => 1) : Fin 1 → Fin 1 → Fin 4 → ℚ)
        (fun _ => 0) (fun _ _ _ => 0 : T3 1 1 2) = fun _ _ _ => 0 := by
  have hne : ((fun _ _ _ => (1 : ℚ)) : Fin 1 → Fin 1 → Fin 4 → ℚ)
      ≠ (fun _ _ _ => 0) := by
    intro h
    exact one_ne_zero (congrFun (congrFun (congrFun h 0) 0) 0)
  exact ⟨hne, meshConv_zero_input_zero_output 1 1 1 2 1 1 B21 _ hne⟩

/-- Claim C7: `DownSamp.forward` with target `nv_prev ≤ nv` returns exactly
the first `nv_prev` vertex columns with all batch entries and channels
unchanged, and is the identity when the target equals the current vertex
count. -/
theorem downSamp_truncates_idempotent :
    (∀ (b c nv nvPrev : ℕ) (h : nvPrev ≤ nv) (x : T3 b c nv)
        (i : Fin b) (j : Fin c) (v : Fin nvPrev),
      DownSamp.forward nvPrev h x i j v = x i j ⟨v.val, lt_of_lt_of_le v.isLt h⟩)
    ∧ (∀ (b c nv : ℕ) (x : T3 b c nv), DownSamp.forward nv (le_refl nv) x = x) := by
  constructor
  · intro b c nv nvPrev h x i j v
    rfl
  · intro b c nv x
    funext i j v
    simp [DownSamp.forward, Fin.castLE]

/-- Claim C7 witness: truncation and idempotence at a concrete tensor. -/
theorem downSamp_truncates_idempotent_witness :
    DownSamp.forward 1 (by omega) sampleT3 (0 : Fin 1) (0 : Fin 1) (0 : Fin 1)
      = sampleT3 0 0 ⟨0, by omega⟩
    ∧ DownSamp.forward 2 (le_refl 2) sampleT3 = sampleT3 :=
  ⟨downSamp_truncates_idempotent.1 1 1 2 1 (by omega) sampleT3 0 0 0,
   downSamp_truncates_idempotent.2 1 1 2 sampleT3⟩

/-- Claim C8: a stride-2 `MeshConv` on the level-`lvl` bundle followed by a
stride-2 `MeshConvTranspose` on the same level's bundle at the conv's output
channel width yields an output whose vertex count is again `icoNv lvl`. -/
theorem meshConv_then_transpose_restores_nv (cIn cMid cOut lvl : ℕ) (s : Shape)
    (hch : s.ch = cIn) (hnv : s.nv = icoNv lvl) :
    (meshConvShape cIn cMid lvl 2 s).bind (meshConvTransposeShape cMid cOut lvl)
      = Except.ok ⟨cOut, icoNv lvl⟩ := by
  have hle := icoNv_pred_le lvl
  simp [meshConvShape, meshConvTransposeShape, meshConvNvPrev, broadcastDim,
    hch, hnv, Except.bind]
  omega

/-- Claim C8 witness: at level 1 the composition restores `nv = 42`. -/
theorem meshConv_then_transpose_restores_nv_witness :
    (meshConvShape 3 5 1 2 ⟨3, 42⟩).bind (meshConvTransposeShape 5 7 1)
      = Except.ok ⟨7, icoNv 1⟩ :=
  meshConv_then_transpose_restores_nv 3 5 7 1 ⟨3, 42⟩ rfl (by decide)

/-- Claim C9: every successful `ResBlock` forward pass produces `out_chan`
output channels, whatever `in_chan` and `neck_chan` are; and the skip path is
the identity (rather than the 1x1-convolution / downsample / batch-norm
branch) exactly when `in_chan = out_chan` and no coarsening is requested. -/
theorem resBlock_out_channels_skip_identity :
    (∀ (inC neckC outC level : ℕ) (coarsen : Bool) (s r : Shape),
      resBlockShape inC neckC outC level coarsen s = Except.ok r → r.ch = outC)
    ∧ (∀ (inC outC : ℕ) (coarsen : Bool),
      resBlockUsesConvSkip inC outC coarsen = false ↔ inC = outC ∧ coarsen = false) := by
  constructor
  · intro inC neckC outC level coarsen s r h
    unfold resBlockShape at h
    obtain ⟨x2, hx2, h⟩ := exceptBind_ok h
    obtain ⟨x1, hx1, h⟩ := exceptBind_ok h
    obtain ⟨out, hout, h⟩ := exceptBind_ok h
    rw [reluShape_ok h]
    have hmain := resBlockMainShape_ok_ch hx1
    have hskip : x2.ch = outC := by
      unfold resBlockX2 at hx2
      by_cases hc : resBlockUsesConvSkip inC outC coarsen = true
      · rw [if_pos hc] at hx2
        exact resBlockSkipShape_ok_ch hx2
      · rw [if_neg hc] at hx2
        injection hx2 with hx2e
        have heq : inC = outC := by
          unfold resBlockUsesConvSkip at hc
          simp at hc
          exact hc.1
        rw [← hx2e, hmain.1, heq]
    exact addShape_ok_ch hmain.2 hskip hout
  · intro inC outC coarsen
    unfold resBlockUsesConvSkip
    constructor
    · intro h
      simp at h
      exact h
    · intro h
      simp [h.1, h.2]

/-- Claim C9 witness: a concrete coarsening `ResBlock` (in 4, neck 2, out 8,
level 1) on a (4, 42) input succeeds with 8 output channels, and the
identity-skip condition holds at equal channel counts without coarsening. -/
theorem resBlock_out_channels_skip_identity_witness :
    (⟨8, 12⟩ : Shape).ch = 8
    ∧ (resBlockUsesConvSkip 3 3 false = false ↔ 3 = 3 ∧ false = false) :=
  ⟨resBlock_out_channels_skip_identity.1 4 2 8 1 true ⟨4, 42⟩ ⟨8, 12⟩ rfl,
   resBlock_out_channels_skip_identity.2 3 3 false⟩

/-- Claim C10: the transposed operator is not zero-preserving: the identity
basis term at every padded vertex position equals one regardless of the
input, and with the nonzero coefficient tensor `coeffsId` (weight 1 on the
identity term) and zero bias, the all-zero input produces a nonzero output
at a padded position of the concrete bundle `B21`. -/
theorem meshConvTranspose_not_zero_preserving :
    (∀ (b c p nv : ℕ) (x : T3 b c p) (i : Fin b) (j : Fin c) (v : Fin nv),
      p ≤ v.val → padOnesTo x nv i j v = 1)
    ∧ coeffsId ≠ (fun _ _ _ => 0)
    ∧ MeshConvTranspose.forward B21 coeffsId (fun _ => 0) zeroIn11
        (0 : Fin 1) (0 : Fin 1) (1 : Fin 2) ≠ 0 := by
  refine ⟨?_, ?_, ?_⟩
  · intro b c p nv x i j v hv
    unfold padOnesTo
    rw [dif_neg (by omega)]
  · intro h
    have h0 := congrFun (congrFun (congrFun h 0) 0) 0
    simp [coeffsId] at h0
  · have h : MeshConvTranspose.forward B21 coeffsId (fun _ => 0) zeroIn11
        (0 : Fin 1) (0 : Fin 1) (1 : Fin 2) = 1 := by
      simp [MeshConvTranspose.forward, padOnesTo, spmatmul, gradFaceEW, gradFaceNS,
        gradFace, coeffsId, B21, zeroIn11, Fin.sum_univ_four, Fin.sum_univ_succ]
    rw [h]
    exact one_ne_zero

/-- Claim C10 witness: the padded column of the all-zero input is one. -/
theorem meshConvTranspose_not_zero_preserving_witness :
    padOnesTo zeroIn11 2 (0 : Fin 1) (0 : Fin 1) (1 : Fin 2) = 1 :=
  meshConvTranspose_not_zero_preserving.1 1 1 1 2 zeroIn11 0 0 1 (by decide)
